import Mathlib

/-!
Shallow embedding of the translation bot's core pipeline
(src/database.py and src/services.py of D-upe/tra-koyeb).

Conventions:
* SQL tables become Lean lists of structure rows; queries become list
  traversals in row order.
* Timestamps are modelled as whole seconds (`Nat`); the code's
  `datetime` arithmetic is faithful under the assumption that clocks do
  not run backwards (`window_start ≤ now`), stated as a hypothesis where
  it matters.
* Python exceptions raised by providers are modelled as values
  (`GRes.exn`, `GroqRes.exn`); database operations are modelled as total
  state transformers.
* `price_usd` (SQL REAL) is modelled as `Rat`; no claim depends on
  floating-point behaviour of prices.
-/

/-- Whitespace characters stripped by Python's `str.strip()` (ASCII range,
which is all the cache keys exercise). -/
def isPySpaceB (c : Char) : Bool :=
  c == ' ' || c == '\t' || c == '\n' || c == '\r' || c == '\x0b' || c == '\x0c'

/-- Python `str.lower()` on the character list (ASCII case mapping, as in
`Char.toLower`). -/
def lowerList (l : List Char) : List Char := l.map Char.toLower

/-- Python `str.strip()` on a character list: drop whitespace from both ends. -/
def pyStripList (l : List Char) : List Char :=
  ((l.dropWhile isPySpaceB).reverse.dropWhile isPySpaceB).reverse

/-- The cache-key normalization used throughout src/database.py:
`text.lower().strip()`. -/
def normKey (s : String) : String := ⟨pyStripList (lowerList s.data)⟩

/-- Python `str.rstrip(c)`: drop all trailing occurrences of `c`. -/
def rstripChar (c : Char) (l : List Char) : List Char :=
  (l.reverse.dropWhile (· == c)).reverse

/-- Python substring test `a in b` on character lists. -/
def is_substr (a b : List Char) : Bool :=
  b.tails.any (fun t => a.isPrefixOf t)

/-- Row of the `users` table (src/database.py, table 1).
`context_mode` is stored as INTEGER with DEFAULT 1; `created_at` default
CURRENT_TIMESTAMP. -/
structure UserRow where
  user_id : Nat
  dialect : String
  context_mode : Bool
  created_at : Nat
deriving DecidableEq

/-- Row of the `history` table; the list is kept newest-first, matching
`ORDER BY time DESC`. The formatted time column is not modelled. -/
structure HistRow where
  user_id : Nat
  text : String
deriving DecidableEq

/-- Row of the `cache` table, PRIMARY KEY (text, dialect). The two
timestamp columns (`created_at`, `last_used`) are not modelled; no claim
mentions them. -/
structure CacheRow where
  text : String
  dialect : String
  translation : String
  hit_count : Nat
deriving DecidableEq

/-- Row of the `rate_limits` table, PRIMARY KEY user_id. -/
structure RateRow where
  user_id : Nat
  request_count : Nat
  window_start : Nat
deriving DecidableEq

/-- Row of the `admin_users` table. -/
structure AdminRow where
  user_id : Nat
  username : Option String
  can_grant_access : Bool
deriving DecidableEq

/-- Row of the `packages` table. -/
structure Package where
  package_id : Nat
  name : String
  translations_limit : Nat
  window_minutes : Nat
  price_usd : Rat
deriving DecidableEq

/-- Row of the `user_subscriptions` table (fields the claims need). -/
structure SubRow where
  user_id : Nat
  package_id : Nat
  is_active : Bool
  end_date : Option Nat
deriving DecidableEq

/-- Modelled from the spec: row of the verified-translations store.
`Database.add_verified_translation` / `get_verified_translation` are called
from src/handlers.py and src/services.py but are not defined in
src/database.py; spec §3 says "VerifiedEntry — same key shape as
CacheEntry", i.e. key = (normalized source text, dialect), value = the
approved translation payload. -/
structure VerifiedRow where
  text : String
  dialect : String
  translation : String
deriving DecidableEq

/-- The state held by the `Database` class: one engine flag (`is_pg`) plus
the tables the claims touch (`favorites` is omitted; no claim reads it). -/
structure DbState where
  is_pg : Bool
  users : List UserRow
  history : List HistRow
  cache : List CacheRow
  rate_limits : List RateRow
  admin_users : List AdminRow
  packages : List Package
  user_subscriptions : List SubRow
  verified : List VerifiedRow
deriving DecidableEq

/-- `Database.get_user` (src/database.py lines 204-213): returns the row's
dialect/context_mode, inserting a default row on first contact. -/
def get_user (db : DbState) (uid now : Nat) : (String × Bool) × DbState :=
  match db.users.find? (fun u => u.user_id == uid) with
  | some u => ((u.dialect, u.context_mode), db)
  | none =>
      (("standard", true),
       { db with users := db.users ++ [⟨uid, "standard", true, now⟩] })

/-- `Database.update_user_dialect` (src/database.py lines 215-223).
PostgreSQL: `INSERT .. ON CONFLICT (user_id) DO UPDATE SET dialect = ..`
touches only the dialect column. SQLite: `INSERT OR REPLACE` deletes the
conflicting row and inserts a fresh one, so `context_mode` and
`created_at` revert to their column defaults (1 and CURRENT_TIMESTAMP). -/
def update_user_dialect (db : DbState) (uid : Nat) (dialect : String) (now : Nat) : DbState :=
  if db.users.any (fun u => u.user_id == uid) then
    if db.is_pg then
      let users2 := db.users.map
        (fun u => if u.user_id == uid then { u with dialect := dialect } else u)
      { db with users := users2 }
    else
      let users2 := db.users.filter (fun u => !(u.user_id == uid)) ++ [⟨uid, dialect, true, now⟩]
      { db with users := users2 }
  else
    { db with users := db.users ++ [⟨uid, dialect, true, now⟩] }

/-- `Database.get_history` (src/database.py lines 225-229): the user's
texts, newest first, LIMIT 10 (the default used by `translate_text`). -/
def get_history (db : DbState) (uid : Nat) : List String :=
  ((db.history.filter (fun h => h.user_id == uid)).take 10).map (fun h => h.text)

/-- `Database.add_history` (src/database.py lines 231-233). -/
def add_history (db : DbState) (uid : Nat) (text : String) : DbState :=
  { db with history := ⟨uid, text⟩ :: db.history }

/-- `Database.get_cached_translation` (src/database.py lines 246-252):
lookup under the normalized key; on a hit the row's hit counter is bumped
(`hit_count = hit_count + 1`) and the translation returned. -/
def get_cached_translation (db : DbState) (text dialect : String) : Option String × DbState :=
  match db.cache.find? (fun r => r.text == normKey text && r.dialect == dialect) with
  | some r =>
      let cache2 := db.cache.map
        (fun q => if q.text == normKey text && q.dialect == dialect then
            { q with hit_count := q.hit_count + 1 } else q)
      (some r.translation, { db with cache := cache2 })
  | none => (none, db)

/-- `Database.cache_translation` (src/database.py lines 254-261).
PostgreSQL: `ON CONFLICT (text, dialect) DO UPDATE SET translation = ..`
keeps the existing row (and its hit counter). SQLite: `INSERT OR REPLACE`
replaces the whole row, so `hit_count` reverts to its default 1. -/
def cache_translation (db : DbState) (text dialect translation : String) : DbState :=
  if db.cache.any (fun r => r.text == normKey text && r.dialect == dialect) then
    if db.is_pg then
      let cache2 := db.cache.map
        (fun r => if r.text == normKey text && r.dialect == dialect then
            { r with translation := translation } else r)
      { db with cache := cache2 }
    else
      let cache2 := db.cache.filter (fun r => !(r.text == normKey text && r.dialect == dialect))
        ++ [⟨normKey text, dialect, translation, 1⟩]
      { db with cache := cache2 }
  else
    { db with cache := db.cache ++ [⟨normKey text, dialect, translation, 1⟩] }

/-- `Database.check_rate_limit` (src/database.py lines 286-300). Time in
seconds; `time_elapsed >= window_minutes` on float minutes is rendered as
`window_minutes * 60 ≤ now - window_start`, and `int(time_elapsed)` as
`(now - window_start) / 60`, both exact when `window_start ≤ now`. -/
def check_rate_limit (db : DbState) (uid now : Nat) (max_requests window_minutes : Nat) :
    (Bool × Int × Int) × DbState :=
  match db.rate_limits.find? (fun r => r.user_id == uid) with
  | none =>
      ((true, (max_requests : Int) - 1, (window_minutes : Int)),
       { db with rate_limits := db.rate_limits ++ [⟨uid, 1, now⟩] })
  | some r =>
      if window_minutes * 60 ≤ now - r.window_start then
        let rl2 := db.rate_limits.map
          (fun q => if q.user_id == uid then
              { q with request_count := 1, window_start := now } else q)
        ((true, (max_requests : Int) - 1, (window_minutes : Int)), { db with rate_limits := rl2 })
      else if max_requests ≤ r.request_count then
        ((false, 0, (window_minutes : Int) - (((now - r.window_start) / 60 : Nat) : Int)), db)
      else
        let rl2 := db.rate_limits.map
          (fun q => if q.user_id == uid then
              { q with request_count := q.request_count + 1 } else q)
        ((true, (max_requests : Int) - (r.request_count : Int) - 1,
          (window_minutes : Int) - (((now - r.window_start) / 60 : Nat) : Int)),
         { db with rate_limits := rl2 })

/-- The WHERE condition `s.is_active = 1 AND (s.end_date IS NULL OR
s.end_date > now)` shared by the access queries. -/
def active_sub_b (now : Nat) (s : SubRow) : Bool :=
  s.is_active && (match s.end_date with
    | none => true
    | some e => decide (now < e))

/-- The join `user_subscriptions s JOIN packages p ON s.package_id =
p.package_id` restricted to a user's active rows: the packages of the
matching rows, in row order. -/
def active_packages (db : DbState) (uid now : Nat) : List Package :=
  (db.user_subscriptions.filter (fun s => s.user_id == uid && active_sub_b now s)).filterMap
    (fun s => db.packages.find? (fun p => p.package_id == s.package_id))

/-- `Database.is_user_allowed` (src/database.py lines 302-311): admin
membership first, then an active subscription, then open/invite-only mode
depending on whether the admin set is empty. -/
def is_user_allowed (db : DbState) (uid now : Nat) : Bool × Option String :=
  if db.admin_users.any (fun a => a.user_id == uid) then (true, some "admin")
  else
    match (active_packages db uid now).head? with
    | some p => (true, some p.name)
    | none =>
        if 0 < db.admin_users.length then (false, none) else (true, some "free")

/-- `ORDER BY p.translations_limit DESC LIMIT 1`: the first package with
the greatest limit. -/
def max_by_limit (l : List Package) : Option Package :=
  l.foldl (fun acc p =>
    match acc with
    | none => some p
    | some q => if q.translations_limit < p.translations_limit then some p else some q) none

/-- The quota record returned by `Database.get_user_limits`. -/
structure Limits where
  limit : Nat
  window : Nat
  tier : String
  price : Rat
deriving DecidableEq

/-- `Database.get_user_limits` (src/database.py lines 313-320): note the
order — the subscription query runs first, and the admin defaults apply
only when it returns no row. -/
def get_user_limits (db : DbState) (uid now : Nat) : Limits :=
  match max_by_limit (active_packages db uid now) with
  | some p => ⟨p.translations_limit, p.window_minutes, p.name, p.price_usd⟩
  | none =>
      if db.admin_users.any (fun a => a.user_id == uid) then ⟨999999, 60, "admin", 0⟩
      else ⟨14, 60, "free", 0⟩

/-- Modelled from the spec: `Database.get_verified_translation`, called at
src/services.py line 315 but absent from src/database.py. Lookup under the
CacheEntry key shape (normalized text, dialect), returning the approved
payload when present (spec §3 "VerifiedEntry"). -/
def get_verified_translation (db : DbState) (text dialect : String) : Option String :=
  (db.verified.find? (fun r => r.text == normKey text && r.dialect == dialect)).map
    (fun r => r.translation)

/-- One entry of `LOCAL_DICTIONARY` (src/services.py lines 27-238). -/
structure DictEntry where
  darja : String
  pronunciation : String
  french : String
  english : String
  note : String
deriving DecidableEq

/-- `LOCAL_DICTIONARY` (src/services.py lines 27-238), in insertion order
(Python dicts preserve it, and `find_match` iterates it). -/
def LOCAL_DICTIONARY : List (String × DictEntry) :=
  [("hello", ⟨"واش راك / سلام", "Wash rak / Salam", "Bonjour / Salut", "Hello",
      "Wash rak is typically Algerian"⟩),
   ("good morning", ⟨"صباح الخير", "Sbah el khir", "Bonjour", "Good morning",
      "Standard greeting"⟩),
   ("good night", ⟨"تصبح على خير", "Tesbah ala khair", "Bonne nuit", "Good night",
      "Said when parting at night"⟩),
   ("goodbye", ⟨"مع السلامة / بسلامة", "Ma\x27a salama / B\x27salama", "Au revoir", "Goodbye",
      "B\x27salama is the Algerian short form"⟩),
   ("how are you", ⟨"واش راك / كيفاه راك", "Wash rak / Kifah rak", "Comment ça va", "How are you",
      "Wash rak is most common in Algeria"⟩),
   ("thank you", ⟨"شكرا / بارك الله فيك", "Choukran / Barak Allah fik", "Merci", "Thank you",
      "Barak Allah fik is more heartfelt/grateful"⟩),
   ("please", ⟨"عفوا / برك الله فيك", "\x27Afak / Baraka Allah fik", "S\x27il te plaît", "Please",
      "Literally means \x22for your sake\x22"⟩),
   ("sorry", ⟨"سمحني / معذرة", "Smehli / Ma\x27zerta", "Pardon / Désolé", "Sorry / Excuse me",
      "Smehli literally means \x22forgive me\x22"⟩),
   ("yes", ⟨"نعم / واه / إييه", "Na\x27am / Wah / Eyeh", "Oui", "Yes",
      "Wah and Eyeh are casual affirmations"⟩),
   ("no", ⟨"لا / أواه", "La / Owah", "Non", "No",
      "Owah is Algerian pronunciation"⟩),
   ("food", ⟨"الماكل / الطعام", "El-makul / At-ta\x27am", "Nourriture", "Food",
      "El-makul is specifically Algerian dialect"⟩),
   ("water", ⟨"الماء / الما", "El-ma\x27 / El-ma", "Eau", "Water",
      "El-ma is the Algerian pronunciation"⟩),
   ("bread", ⟨"الخبز / الرغيف", "El-khobz / Er-raghif", "Pain", "Bread",
      "Essential part of every Algerian meal"⟩),
   ("coffee", ⟨"القهوة", "El-qahwa", "Café", "Coffee",
      "Algerian coffee culture is strong"⟩),
   ("tea", ⟨"الأتاي / الشاي", "El-atay / Esh-shay", "Thé", "Tea",
      "Mint tea is traditional"⟩),
   ("mother", ⟨"مّي / الوالدة", "Mmi / El-walida", "Mère", "Mother",
      "Mmi is the most intimate term"⟩),
   ("father", ⟨"بابا / الوالد", "Baba / El-walid", "Père", "Father",
      "Baba is affectionate Algerian term"⟩),
   ("brother", ⟨"خوي", "Khouya", "Frère", "Brother",
      "Also used to address close male friends"⟩),
   ("sister", ⟨"ختي", "Khti", "Sœur", "Sister",
      "Also used to address close female friends"⟩),
   ("friend", ⟨"الصاحب / الصاحبي", "Es-sahib / Es-sahbi", "Ami", "Friend",
      "Es-sahbi literally means \x22my companion\x22"⟩),
   ("i love you", ⟨"نحبك", "Nhebbek", "Je t\x27aime", "I love you",
      "Can be used for romantic or familial love"⟩),
   ("very good", ⟨"مليح / بزاف مليح", "Mlih / Bzzaf mlih", "Très bien", "Very good",
      "Mlih is the most common Algerian term"⟩),
   ("i don\x27t understand", ⟨"ما فهمتش", "Ma fhemtsh", "Je ne comprends pas", "I don\x27t understand",
      "The \x22sh\x22 ending is the Algerian negation"⟩),
   ("where is", ⟨"وين رايح / وين هو", "Win rayeh / Win huwa", "Où est", "Where is",
      "Win is Algerian for \x22where\x22"⟩),
   ("how much", ⟨"شحال / بشحال", "Shhal / Beshhal", "Combien", "How much",
      "Essential for shopping in markets"⟩),
   ("where are you going", ⟨"وين راك رايح", "Win rak rayeh", "Où vas-tu", "Where are you going",
      "Win means where"⟩),
   ("i am hungry", ⟨"راني جيعان", "Rani ji\x27an", "J\x27ai faim", "I am hungry",
      "Rani means \x22I am\x22 in this context"⟩),
   ("i am thirsty", ⟨"راني عطشان", "Rani \x27atshan", "J\x27ai soif", "I am thirsty",
      "Used for needing water"⟩),
   ("beautiful", ⟨"شباب / شابة", "Shbab (m) / Shaba (f)", "Beau / Belle", "Beautiful / Handsome",
      "Very common Algerian word"⟩),
   ("nothing", ⟨"والو", "Wallou", "Rien", "Nothing",
      "Derived from Arabic \x22wa-la-shay\x22"⟩)]

/-- `DictionaryFallback.normalize` (src/services.py lines 243-246):
`text.lower().strip().rstrip(?).rstrip(!).rstrip(.)`. -/
def dict_normalize (t : String) : String :=
  ⟨rstripChar '.' (rstripChar '!' (rstripChar '?' (pyStripList (lowerList t.data))))⟩

/-- `DictionaryFallback.find_match` (src/services.py lines 248-262): direct
key hit first, then the first key related to the input by substring in
either direction. -/
def find_match (t : String) : Option DictEntry :=
  let n := dict_normalize t
  match LOCAL_DICTIONARY.find? (fun e => e.1 == n) with
  | some e => some e.2
  | none =>
      LOCAL_DICTIONARY.findSome? (fun e =>
        if is_substr e.1.data n.data || is_substr n.data e.1.data then some e.2 else none)

/-- `DictionaryFallback.format_translation` (src/services.py lines 264-275). -/
def format_translation (text : String) (m : DictEntry) : String :=
  "🔤 **Original:** " ++ text ++
  "\n🇩🇿 **Darja:** " ++ m.darja ++
  "\n🗣️ **Pronunciation:** " ++ m.pronunciation ++
  "\n🇫🇷 **French:** " ++ m.french ++
  "\n🇬🇧 **English:** " ++ m.english ++
  "\n💡 **Note:** " ++ m.note ++
  "\n\n⚠️ *Using offline dictionary (API unavailable)*"

/-- The terminal user-visible failure string (src/services.py lines
402-407); a missing error renders the way Python prints `None`. -/
def terminal_error (apiErr : Option String) : String :=
  "❌ *Translation Service Unavailable*\n\n" ++
  "The AI translation service is currently unavailable.\n" ++
  "Please try again in a few minutes.\n\n" ++
  "Error: `" ++ (match apiErr with | none => "None" | some e => e) ++ "`"

/-- Outcome of one Gemini `generate_content` call: either a response whose
`.text` field is the given string (the empty string standing for a
falsy/safety-blocked response), or a raised exception with its message. -/
inductive GRes where
  | ok (text : String)
  | exn (err : String)
deriving DecidableEq

/-- A Gemini attempt fails (the loop advances) iff it raises or its
response text is falsy. -/
def gres_fails : GRes → Bool
  | GRes.ok t => t == ""
  | GRes.exn _ => true

/-- Outcome of the single Groq chat call: a response with its (possibly
empty) `choices` list, or a raised exception. -/
inductive GroqRes where
  | ok (choices : List String)
  | exn (err : String)
deriving DecidableEq

/-- The provider environment of one `translate_text` request:
`GEMINI_API_KEYS` and `GROQ_API_KEY` from src/config.py, and the outcome
each provider call would produce. The system prompt is fixed for the whole
request (same dialect and history), so a Gemini outcome depends only on
the (model version, api key) pair; `groqKey = ""` models an unset
`GROQ_API_KEY` (falsy in `if GROQ_API_KEY:`). -/
structure Env where
  geminiKeys : List String
  groqKey : String
  gemini : String → String → GRes
  groq : GroqRes

/-- `version_fallback` (src/services.py line 332) with `DEFAULT_MODEL =
"gemini-2.0-flash"` (src/config.py line 31) inlined. -/
def version_fallback : List String :=
  ["gemini-2.0-flash", "gemini-2.0-flash-exp", "gemini-2.5-flash", "gemini-1.5-flash"]

/-- The (model version, api key) pairs in attempt order: outer loop over
versions, inner loop over keys (src/services.py lines 337-338). -/
def all_pairs (versions keys : List String) : List (String × String) :=
  versions.flatMap (fun v => keys.map (fun k => (v, k)))

/-- Observable events of one `translate_text` run, in order. -/
inductive Step where
  | verifiedLookup
  | cacheLookup
  | geminiAttempt (ver : String) (key : String)
  | groqAttempt
  | dictLookup
  | cacheWrite
  | historyWrite
deriving DecidableEq

/-- Result of the Gemini loop: the first successful translation if any,
the last error observed so far (threading the incoming `api_error`), and
the attempts made. -/
structure GemOut where
  result : Option String
  apiErr : Option String
  steps : List Step
deriving DecidableEq

/-- The nested Gemini loop (src/services.py lines 337-363): stop at the
first non-falsy response; a falsy response records "Safety filter blocked
response", an exception records its message, and both advance. -/
def run_gemini (g : String → String → GRes) : List (String × String) → Option String → GemOut
  | [], err => ⟨none, err, []⟩
  | (ver, key) :: rest, err =>
      match g ver key with
      | GRes.ok t =>
          if t == "" then
            let o := run_gemini g rest (some "Safety filter blocked response")
            ⟨o.result, o.apiErr, Step.geminiAttempt ver key :: o.steps⟩
          else ⟨some t, err, [Step.geminiAttempt ver key]⟩
      | GRes.exn e =>
          let o := run_gemini g rest (some e)
          ⟨o.result, o.apiErr, Step.geminiAttempt ver key :: o.steps⟩

/-- The dictionary fallback and terminal error (src/services.py lines
392-407): a match writes history and returns the offline-formatted entry;
otherwise the terminal failure string embeds the last api error. -/
def dict_phase (db : DbState) (text : String) (uid : Nat) (apiErr : Option String)
    (tr : List Step) : String × DbState × List Step :=
  match find_match text with
  | some m =>
      (format_translation text m, add_history db uid text, tr ++ [Step.dictLookup, Step.historyWrite])
  | none => (terminal_error apiErr, db, tr ++ [Step.dictLookup])

/-- The provider chain run after the verified store and cache both miss
(src/services.py lines 332-407): Gemini cross-product, then Groq (when
configured), then the offline dictionary. `cacheable` is the guard
`not user[context_mode] or not history` computed by the caller; a Groq
response with an empty `choices` list falls through without touching
`api_error`. -/
def after_cache (env : Env) (db : DbState) (text : String) (uid : Nat) (dialect : String)
    (cacheable : Bool) : String × DbState × List Step :=
  let gout := run_gemini env.gemini (all_pairs version_fallback env.geminiKeys) none
  match gout.result with
  | some t =>
      let db2 := add_history db uid text
      if cacheable then
        (t, cache_translation db2 text dialect t,
         gout.steps ++ [Step.historyWrite, Step.cacheWrite])
      else (t, db2, gout.steps ++ [Step.historyWrite])
  | none =>
      if env.groqKey == "" then dict_phase db text uid gout.apiErr gout.steps
      else
        match env.groq with
        | GroqRes.ok (c :: _) =>
            let db2 := add_history db uid text
            if cacheable then
              (c, cache_translation db2 text dialect c,
               gout.steps ++ [Step.groqAttempt, Step.historyWrite, Step.cacheWrite])
            else (c, db2, gout.steps ++ [Step.groqAttempt, Step.historyWrite])
        | GroqRes.ok [] =>
            dict_phase db text uid gout.apiErr (gout.steps ++ [Step.groqAttempt])
        | GroqRes.exn e =>
            dict_phase db text uid (some ("Groq error: " ++ e)) (gout.steps ++ [Step.groqAttempt])

/-- `translate_text` (src/services.py lines 308-407), returning the reply
string, the final database state, and the trace of observable steps.
Resolution order: user lookup, verified store, cache (only when the
request is context-independent), Gemini cross-product, Groq, offline
dictionary, terminal error. -/
def translate_text (env : Env) (db : DbState) (text : String) (uid now : Nat) :
    String × DbState × List Step :=
  let gu := get_user db uid now
  let dialect := gu.1.1
  let context_mode := gu.1.2
  let db1 := gu.2
  let histOpt : Option (List String) :=
    if context_mode then some (get_history db1 uid) else none
  match get_verified_translation db1 text dialect with
  | some v =>
      ("✅ *Verified Translation*\n\n" ++ v, add_history db1 uid text,
       [Step.verifiedLookup, Step.historyWrite])
  | none =>
      let cacheable : Bool := !context_mode || (histOpt.getD []).isEmpty
      if cacheable then
        let g := get_cached_translation db1 text dialect
        match g.1 with
        | some c =>
            ("⚡ *Cached*\n\n" ++ c, add_history g.2 uid text,
             [Step.verifiedLookup, Step.cacheLookup, Step.historyWrite])
        | none =>
            let o := after_cache env g.2 text uid dialect cacheable
            (o.1, o.2.1, Step.verifiedLookup :: Step.cacheLookup :: o.2.2)
      else
        let o := after_cache env db1 text uid dialect cacheable
        (o.1, o.2.1, Step.verifiedLookup :: o.2.2)

/-- The (version, key) pairs attempted by a run, in order. -/
def attempted_pairs (tr : List Step) : List (String × String) :=
  tr.filterMap (fun s => match s with
    | Step.geminiAttempt v k => some (v, k)
    | _ => none)

/-- The provider-facing events of a trace, dropping database writes. -/
def provider_steps (tr : List Step) : List Step :=
  tr.filter (fun s => match s with
    | Step.geminiAttempt _ _ => true
    | Step.groqAttempt => true
    | Step.dictLookup => true
    | _ => false)

/-- The (text, dialect) keys of the cache table, in row order. -/
def cache_keys (c : List CacheRow) : List (String × String) :=
  c.map (fun r => (r.text, r.dialect))

/-! Helper lemmas. -/

theorem find?_map_key {α : Type} (g : α → α) (p : α → Bool) (h : ∀ x, p (g x) = p x)
    (l : List α) : (l.map g).find? p = (l.find? p).map g := by
  induction l with
  | nil => rfl
  | cons a t ih =>
      cases hpa : p a with
      | true =>
          have : p (g a) = true := by rw [h a, hpa]
          simp [List.find?, hpa, this]
      | false =>
          have : p (g a) = false := by rw [h a, hpa]
          simp [List.find?, hpa, this, ih]

theorem add_history_cache (db : DbState) (uid : Nat) (t : String) :
    (add_history db uid t).cache = db.cache := rfl

theorem get_user_cache (db : DbState) (uid now : Nat) :
    ((get_user db uid now).2).cache = db.cache := by
  unfold get_user
  cases db.users.find? (fun u => u.user_id == uid) <;> rfl

theorem get_user_verified (db : DbState) (uid now : Nat) :
    ((get_user db uid now).2).verified = db.verified := by
  unfold get_user
  cases db.users.find? (fun u => u.user_id == uid) <;> rfl

/-- CLAIM C3: an expired window (`now - window_start ≥ window_minutes`,
rendered in seconds) resets the stored count to exactly 1 with a fresh
window start and allows the request; an unexpired window below the limit
increments and allows; an unexpired window at the limit denies with
remaining = 0. -/
theorem check_rate_limit_spec (db : DbState) (uid now maxr winm cnt ws : Nat)
    (hrow : db.rate_limits.find? (fun q => q.user_id == uid) = some ⟨uid, cnt, ws⟩) :
    (winm * 60 ≤ now - ws →
      (check_rate_limit db uid now maxr winm).1 = (true, (maxr : Int) - 1, (winm : Int)) ∧
      ((check_rate_limit db uid now maxr winm).2).rate_limits.find? (fun q => q.user_id == uid)
        = some ⟨uid, 1, now⟩) ∧
    (now - ws < winm * 60 → cnt < maxr →
      (check_rate_limit db uid now maxr winm).1
        = (true, (maxr : Int) - (cnt : Int) - 1, (winm : Int) - (((now - ws) / 60 : Nat) : Int)) ∧
      ((check_rate_limit db uid now maxr winm).2).rate_limits.find? (fun q => q.user_id == uid)
        = some ⟨uid, cnt + 1, ws⟩) ∧
    (now - ws < winm * 60 → maxr ≤ cnt →
      check_rate_limit db uid now maxr winm
        = ((false, 0, (winm : Int) - (((now - ws) / 60 : Nat) : Int)), db)) := by
  have hkey : ∀ q : RateRow,
      ((fun q : RateRow => q.user_id == uid)
        (if q.user_id == uid then { q with request_count := 1, window_start := now } else q))
      = ((fun q : RateRow => q.user_id == uid) q) := by
    intro q; by_cases h : q.user_id == uid <;> simp [h]
  have hkey2 : ∀ q : RateRow,
      ((fun q : RateRow => q.user_id == uid)
        (if q.user_id == uid then { q with request_count := q.request_count + 1 } else q))
      = ((fun q : RateRow => q.user_id == uid) q) := by
    intro q; by_cases h : q.user_id == uid <;> simp [h]
  refine ⟨fun hexp => ?_, fun hun hlt => ?_, fun hun hge => ?_⟩
  · unfold check_rate_limit
    rw [hrow]
    simp only [if_pos hexp]
    refine ⟨trivial, ?_⟩
    rw [find?_map_key _ _ hkey, hrow]
    simp
  · unfold check_rate_limit
    rw [hrow]
    simp only [if_neg (by omega : ¬ winm * 60 ≤ now - ws), if_neg (by omega : ¬ maxr ≤ cnt)]
    refine ⟨trivial, ?_⟩
    rw [find?_map_key _ _ hkey2, hrow]
    simp
  · unfold check_rate_limit
    rw [hrow]
    simp only [if_neg (by omega : ¬ winm * 60 ≤ now - ws), if_pos hge]

theorem check_rate_limit_spec_witness :
    ([⟨1, 5, 0⟩] : List RateRow).find? (fun q => q.user_id == 1) = some ⟨1, 5, 0⟩ ∧
    ((60 * 60 ≤ 7200 - 0 →
      (check_rate_limit ⟨false, [], [], [], [⟨1, 5, 0⟩], [], [], [], []⟩ 1 7200 10 60).1
        = (true, (10 : Int) - 1, (60 : Int)) ∧
      ((check_rate_limit ⟨false, [], [], [], [⟨1, 5, 0⟩], [], [], [], []⟩ 1 7200 10 60).2).rate_limits.find?
          (fun q => q.user_id == 1) = some ⟨1, 1, 7200⟩) ∧
    (7200 - 0 < 60 * 60 → 5 < 10 →
      (check_rate_limit ⟨false, [], [], [], [⟨1, 5, 0⟩], [], [], [], []⟩ 1 7200 10 60).1
        = (true, (10 : Int) - (5 : Int) - 1, (60 : Int) - (((7200 - 0) / 60 : Nat) : Int)) ∧
      ((check_rate_limit ⟨false, [], [], [], [⟨1, 5, 0⟩], [], [], [], []⟩ 1 7200 10 60).2).rate_limits.find?
          (fun q => q.user_id == 1) = some ⟨1, 5 + 1, 0⟩) ∧
    (7200 - 0 < 60 * 60 → 10 ≤ 5 →
      check_rate_limit ⟨false, [], [], [], [⟨1, 5, 0⟩], [], [], [], []⟩ 1 7200 10 60
        = ((false, 0, (60 : Int) - (((7200 - 0) / 60 : Nat) : Int)),
           ⟨false, [], [], [], [⟨1, 5, 0⟩], [], [], [], []⟩))) :=
  ⟨by decide,
   check_rate_limit_spec ⟨false, [], [], [], [⟨1, 5, 0⟩], [], [], [], []⟩ 1 7200 10 60 5 0 (by decide)⟩

/-- CLAIM C2: with a populated admin set, a non-admin user with no active
subscription is denied; with an empty admin set the same user is allowed
on the default free tier. -/
theorem is_user_allowed_lockout (db : DbState) (uid now : Nat)
    (hadm : ∀ a ∈ db.admin_users, a.user_id ≠ uid)
    (hsub : ∀ s ∈ db.user_subscriptions, s.user_id = uid → active_sub_b now s = false) :
    (db.admin_users ≠ [] → is_user_allowed db uid now = (false, none)) ∧
    (db.admin_users = [] → is_user_allowed db uid now = (true, some "free")) := by
  have hany : db.admin_users.any (fun a => a.user_id == uid) = false := by
    rw [List.any_eq_false]
    intro a ha
    simp [hadm a ha]
  have hfil : db.user_subscriptions.filter (fun s => s.user_id == uid && active_sub_b now s)
      = [] := by
    rw [List.filter_eq_nil_iff]
    intro s hs
    by_cases h : s.user_id = uid
    · simp [h, hsub s hs h]
    · simp [h]
  have hap : active_packages db uid now = [] := by
    unfold active_packages
    rw [hfil]
    rfl
  constructor
  · intro hne
    have hlen : 0 < db.admin_users.length := List.length_pos.mpr hne
    simp [is_user_allowed, hany, hap, hlen]
  · intro hemp
    simp [is_user_allowed, hany, hap, hemp]

theorem is_user_allowed_lockout_witness :
    (∀ a ∈ ([⟨99, none, true⟩] : List AdminRow), a.user_id ≠ 7) ∧
    (([⟨99, none, true⟩] : List AdminRow) ≠ [] →
      is_user_allowed ⟨false, [], [], [], [], [⟨99, none, true⟩], [], [], []⟩ 7 0 = (false, none)) ∧
    (([⟨99, none, true⟩] : List AdminRow) = [] →
      is_user_allowed ⟨false, [], [], [], [], [⟨99, none, true⟩], [], [], []⟩ 7 0
        = (true, some "free")) :=
  ⟨by decide,
   is_user_allowed_lockout ⟨false, [], [], [], [], [⟨99, none, true⟩], [], [], []⟩ 7 0
     (by decide) (by intro s hs; cases hs)⟩

/-- CLAIM C7 counterexample: user 5 is in the admin set AND holds an active
"Basic" subscription (limit 50); `get_user_limits` consults the
subscription join first and returns the Basic tier, not the unlimited
admin quota the claim requires "regardless of any subscription rows". -/
theorem get_user_limits_admin_counterexample :
    ((⟨false, [], [], [], [], [⟨5, none, false⟩], [⟨2, "Basic", 50, 60, 0⟩], [⟨5, 2, true, none⟩],
        []⟩ : DbState).admin_users.any (fun a => a.user_id == 5) = true) ∧
    (get_user_limits ⟨false, [], [], [], [], [⟨5, none, false⟩], [⟨2, "Basic", 50, 60, 0⟩],
        [⟨5, 2, true, none⟩], []⟩ 5 0).tier = "Basic" ∧
    (get_user_limits ⟨false, [], [], [], [], [⟨5, none, false⟩], [⟨2, "Basic", 50, 60, 0⟩],
        [⟨5, 2, true, none⟩], []⟩ 5 0).limit = 50 := by decide

/-- CLAIM C7 (amended): `is_user_allowed` checks admin membership first and
returns (allowed, "admin") regardless of subscriptions; `get_user_limits`
checks the subscription join first, and the unlimited admin quota applies
only when the admin user has no active subscription row. -/
theorem admin_precedence_amended (db : DbState) (uid now : Nat)
    (hadm : db.admin_users.any (fun a => a.user_id == uid) = true) :
    is_user_allowed db uid now = (true, some "admin") ∧
    ((∀ s ∈ db.user_subscriptions, s.user_id = uid → active_sub_b now s = false) →
      get_user_limits db uid now = ⟨999999, 60, "admin", 0⟩) := by
  constructor
  · simp [is_user_allowed, hadm]
  · intro hsub
    have hfil : db.user_subscriptions.filter (fun s => s.user_id == uid && active_sub_b now s)
        = [] := by
      rw [List.filter_eq_nil_iff]
      intro s hs
      by_cases h : s.user_id = uid
      · simp [h, hsub s hs h]
      · simp [h]
    have hap : active_packages db uid now = [] := by
      unfold active_packages
      rw [hfil]
      rfl
    simp [get_user_limits, hap, max_by_limit, hadm]

theorem admin_precedence_amended_witness :
    (([⟨5, none, false⟩] : List AdminRow).any (fun a => a.user_id == 5) = true) ∧
    (is_user_allowed ⟨true, [], [], [], [], [⟨5, none, false⟩], [], [], []⟩ 5 0
        = (true, some "admin") ∧
     ((∀ s ∈ ([] : List SubRow), s.user_id = 5 → active_sub_b 0 s = false) →
       get_user_limits ⟨true, [], [], [], [], [⟨5, none, false⟩], [], [], []⟩ 5 0
         = ⟨999999, 60, "admin", 0⟩)) :=
  ⟨by decide,
   admin_precedence_amended ⟨true, [], [], [], [], [⟨5, none, false⟩], [], [], []⟩ 5 0 (by decide)⟩

/-- CLAIM C10 counterexample: on SQLite, `update_user_dialect` uses
`INSERT OR REPLACE`, which resets `context_mode` to its default: user 7
had context_mode off, and after a dialect update `get_user` reports it
back on. -/
theorem update_user_dialect_sqlite_counterexample :
    ((get_user ⟨false, [⟨7, "standard", false, 100⟩], [], [], [], [], [], [], []⟩ 7 300).1.2
      = false) ∧
    ((get_user (update_user_dialect
        ⟨false, [⟨7, "standard", false, 100⟩], [], [], [], [], [], [], []⟩ 7 "oran" 200)
        7 300).1.2 = true) := by decide

/-- CLAIM C10 (amended): on PostgreSQL, a dialect update for an existing
user rewrites exactly the dialect column of that user's row — every row's
`user_id`, `context_mode` and `created_at` are unchanged; on SQLite the
whole row is replaced and the other columns revert to defaults. -/
theorem update_user_dialect_pg_frame (db : DbState) (uid : Nat) (d : String) (now : Nat)
    (hpg : db.is_pg = true) (hex : db.users.any (fun u => u.user_id == uid) = true) :
    (update_user_dialect db uid d now).users
      = db.users.map (fun u => if u.user_id == uid then { u with dialect := d } else u) ∧
    (update_user_dialect db uid d now).users.map
        (fun u => (u.user_id, u.context_mode, u.created_at))
      = db.users.map (fun u => (u.user_id, u.context_mode, u.created_at)) := by
  have h1 : (update_user_dialect db uid d now).users
      = db.users.map (fun u => if u.user_id == uid then { u with dialect := d } else u) := by
    simp [update_user_dialect, hex, hpg]
  refine ⟨h1, ?_⟩
  rw [h1, List.map_map]
  apply List.map_congr_left
  intro u _
  by_cases h : u.user_id = uid <;> simp [h]

theorem update_user_dialect_pg_frame_witness :
    (([⟨7, "standard", false, 100⟩] : List UserRow).any (fun u => u.user_id == 7) = true) ∧
    ((update_user_dialect ⟨true, [⟨7, "standard", false, 100⟩], [], [], [], [], [], [], []⟩
        7 "oran" 200).users
      = ([⟨7, "standard", false, 100⟩] : List UserRow).map
          (fun u => if u.user_id == 7 then { u with dialect := "oran" } else u) ∧
     (update_user_dialect ⟨true, [⟨7, "standard", false, 100⟩], [], [], [], [], [], [], []⟩
        7 "oran" 200).users.map (fun u => (u.user_id, u.context_mode, u.created_at))
      = ([⟨7, "standard", false, 100⟩] : List UserRow).map
          (fun u => (u.user_id, u.context_mode, u.created_at))) :=
  ⟨by decide,
   update_user_dialect_pg_frame ⟨true, [⟨7, "standard", false, 100⟩], [], [], [], [], [], [], []⟩
     7 "oran" 200 rfl (by decide)⟩

theorem cache_keys_map {g : CacheRow → CacheRow}
    (h : ∀ r, (g r).text = r.text ∧ (g r).dialect = r.dialect) (c : List CacheRow) :
    cache_keys (c.map g) = cache_keys c := by
  unfold cache_keys
  rw [List.map_map]
  apply List.map_congr_left
  intro r _
  simp [(h r).1, (h r).2]

theorem cache_translation_sqlite_eq (db : DbState) (t d tr : String) (hpg : db.is_pg = false) :
    (cache_translation db t d tr).cache
      = db.cache.filter (fun r => !(r.text == normKey t && r.dialect == d))
          ++ [⟨normKey t, d, tr, 1⟩] := by
  unfold cache_translation
  split
  · rw [hpg]
    rfl
  · next hany =>
      have hall : ∀ r ∈ db.cache, (r.text == normKey t && r.dialect == d) = false := by
        intro r hr
        cases hq : (r.text == normKey t && r.dialect == d) with
        | true => exact absurd (List.any_eq_true.mpr ⟨r, hr, hq⟩) hany
        | false => rfl
      have hfil : ∀ r ∈ db.cache,
          (fun r : CacheRow => !(r.text == normKey t && r.dialect == d)) r = true := by
        intro r hr
        simp [hall r hr]
      show db.cache ++ [⟨normKey t, d, tr, 1⟩]
          = db.cache.filter (fun r => !(r.text == normKey t && r.dialect == d))
              ++ [⟨normKey t, d, tr, 1⟩]
      rw [List.filter_eq_self.mpr hfil]

/-- CLAIM C8 counterexample: on SQLite, storing to an existing key via
`INSERT OR REPLACE` resets the hit counter: an entry with `hit_count = 2`
drops to the column default 1, so the counter is not monotone across a
store to an existing key. -/
theorem cache_hit_count_counterexample :
    ((⟨false, [], [], [⟨"hello", "standard", "t1", 2⟩], [], [], [], [], []⟩ : DbState).cache
      = [⟨"hello", "standard", "t1", 2⟩]) ∧
    ((cache_translation ⟨false, [], [], [⟨"hello", "standard", "t1", 2⟩], [], [], [], [], []⟩
        "hello" "standard" "t2").cache = [⟨"hello", "standard", "t2", 1⟩]) ∧
    ¬ (2 : Nat) ≤ 1 := by decide


theorem bump_key (t d : String) : ∀ q : CacheRow,
    ((if q.text == normKey t && q.dialect == d then
        { q with hit_count := q.hit_count + 1 } else q).text = q.text ∧
     (if q.text == normKey t && q.dialect == d then
        { q with hit_count := q.hit_count + 1 } else q).dialect = q.dialect) := by
  intro q
  by_cases h : q.text == normKey t && q.dialect == d <;> simp [h]

theorem set_tr_key (t d tr : String) : ∀ q : CacheRow,
    ((if q.text == normKey t && q.dialect == d then
        { q with translation := tr } else q).text = q.text ∧
     (if q.text == normKey t && q.dialect == d then
        { q with translation := tr } else q).dialect = q.dialect) := by
  intro q
  by_cases h : q.text == normKey t && q.dialect == d <;> simp [h]

theorem get_cached_keys_nodup (db : DbState) (t d : String)
    (hu : (cache_keys db.cache).Nodup) :
    (cache_keys ((get_cached_translation db t d).2).cache).Nodup := by
  unfold get_cached_translation
  split
  · show (cache_keys (db.cache.map _)).Nodup
    rw [cache_keys_map (bump_key t d)]
    exact hu
  · exact hu

theorem get_cached_mono (db : DbState) (t d : String) :
    ∀ r ∈ db.cache, ∃ r2 ∈ ((get_cached_translation db t d).2).cache,
      r2.text = r.text ∧ r2.dialect = r.dialect ∧ r.hit_count ≤ r2.hit_count := by
  intro r hr
  unfold get_cached_translation
  split
  · refine ⟨_, List.mem_map_of_mem _ hr, ?_⟩
    by_cases h : r.text == normKey t && r.dialect == d <;> simp [h]
  · exact ⟨r, hr, rfl, rfl, le_refl _⟩

theorem cache_translation_pg_mono (db : DbState) (t d tr : String) (hpg : db.is_pg = true) :
    ∀ r ∈ db.cache, ∃ r2 ∈ ((cache_translation db t d tr).cache),
      r2.text = r.text ∧ r2.dialect = r.dialect ∧ r.hit_count ≤ r2.hit_count := by
  intro r hr
  unfold cache_translation
  split
  · rw [hpg]
    refine ⟨_, List.mem_map_of_mem _ hr, ?_⟩
    by_cases h : r.text == normKey t && r.dialect == d <;> simp [h]
  · exact ⟨r, List.mem_append_left _ hr, rfl, rfl, le_refl _⟩

theorem cache_translation_keys_nodup (db : DbState) (t d tr : String)
    (hu : (cache_keys db.cache).Nodup) :
    (cache_keys ((cache_translation db t d tr).cache)).Nodup := by
  cases hpg : db.is_pg with
  | false =>
      rw [cache_translation_sqlite_eq db t d tr hpg]
      unfold cache_keys
      rw [List.map_append, List.nodup_append]
      refine ⟨?_, by simp, ?_⟩
      · exact ((List.filter_sublist _).map _).nodup hu
      · intro x hx hx'
        rcases List.mem_map.mp hx with ⟨r, hrf, hkey⟩
        rcases List.mem_filter.mp hrf with ⟨_, hp⟩
        have hx2 : x = (normKey t, d) := by simpa using hx'
        rw [hx2] at hkey
        have h1 : r.text = normKey t := congrArg Prod.fst hkey
        have h2 : r.dialect = d := congrArg Prod.snd hkey
        simp [h1, h2] at hp
  | true =>
      unfold cache_translation
      split
      · rw [hpg]
        show (cache_keys (db.cache.map _)).Nodup
        rw [cache_keys_map (set_tr_key t d tr)]
        exact hu
      · next hany =>
          show (cache_keys (db.cache ++ [⟨normKey t, d, tr, 1⟩])).Nodup
          unfold cache_keys
          rw [List.map_append, List.nodup_append]
          refine ⟨hu, by simp, ?_⟩
          intro x hx hx'
          rcases List.mem_map.mp hx with ⟨r, hrmem, hkey⟩
          have hx2 : x = (normKey t, d) := by simpa using hx'
          rw [hx2] at hkey
          apply hany
          apply List.any_eq_true.mpr
          refine ⟨r, hrmem, ?_⟩
          have h1 : r.text = normKey t := congrArg Prod.fst hkey
          have h2 : r.dialect = d := congrArg Prod.snd hkey
          simp [h1, h2]

theorem cache_sqlite_reset (db : DbState) (t d tr : String) (hpg : db.is_pg = false) :
    ∀ r2 ∈ ((cache_translation db t d tr).cache),
      r2.text = normKey t → r2.dialect = d → r2.hit_count = 1 := by
  intro r2 hmem ht hd2
  rw [cache_translation_sqlite_eq db t d tr hpg] at hmem
  rcases List.mem_append.mp hmem with h | h
  · rcases List.mem_filter.mp h with ⟨_, hp⟩
    simp [ht, hd2] at hp
  · have : r2 = ⟨normKey t, d, tr, 1⟩ := by simpa using h
    rw [this]

/-- CLAIM C8 (amended): the cache keeps at most one row per (normalized
text, dialect) key under both lookup and store on either engine; the hit
counter of every surviving row is monotone under lookups and under
PostgreSQL stores; on SQLite a store to an existing key resets that key's
counter to the column default 1 (the counterexample shows the decrease). -/
theorem cache_upsert_amended (db : DbState) (t d tr : String)
    (hu : (cache_keys db.cache).Nodup) :
    (cache_keys ((get_cached_translation db t d).2).cache).Nodup ∧
    (cache_keys ((cache_translation db t d tr).cache)).Nodup ∧
    (∀ r ∈ db.cache, ∃ r2 ∈ ((get_cached_translation db t d).2).cache,
        r2.text = r.text ∧ r2.dialect = r.dialect ∧ r.hit_count ≤ r2.hit_count) ∧
    (db.is_pg = true → ∀ r ∈ db.cache, ∃ r2 ∈ ((cache_translation db t d tr).cache),
        r2.text = r.text ∧ r2.dialect = r.dialect ∧ r.hit_count ≤ r2.hit_count) ∧
    (db.is_pg = false → ∀ r2 ∈ ((cache_translation db t d tr).cache),
        r2.text = normKey t → r2.dialect = d → r2.hit_count = 1) :=
  ⟨get_cached_keys_nodup db t d hu,
   cache_translation_keys_nodup db t d tr hu,
   get_cached_mono db t d,
   fun hpg => cache_translation_pg_mono db t d tr hpg,
   fun hpg => cache_sqlite_reset db t d tr hpg⟩

theorem cache_upsert_amended_witness :
    (cache_keys [⟨"hello", "standard", "t1", 2⟩]).Nodup ∧
    ((cache_keys ((get_cached_translation
        ⟨false, [], [], [⟨"hello", "standard", "t1", 2⟩], [], [], [], [], []⟩
        "hello" "standard").2).cache).Nodup ∧
     (cache_keys ((cache_translation
        ⟨false, [], [], [⟨"hello", "standard", "t1", 2⟩], [], [], [], [], []⟩
        "hello" "standard" "t2").cache)).Nodup ∧
     (∀ r ∈ ([⟨"hello", "standard", "t1", 2⟩] : List CacheRow),
        ∃ r2 ∈ ((get_cached_translation
            ⟨false, [], [], [⟨"hello", "standard", "t1", 2⟩], [], [], [], [], []⟩
            "hello" "standard").2).cache,
          r2.text = r.text ∧ r2.dialect = r.dialect ∧ r.hit_count ≤ r2.hit_count) ∧
     ((⟨false, [], [], [⟨"hello", "standard", "t1", 2⟩], [], [], [], [], []⟩ : DbState).is_pg = true →
        ∀ r ∈ ([⟨"hello", "standard", "t1", 2⟩] : List CacheRow),
          ∃ r2 ∈ ((cache_translation
              ⟨false, [], [], [⟨"hello", "standard", "t1", 2⟩], [], [], [], [], []⟩
              "hello" "standard" "t2").cache),
            r2.text = r.text ∧ r2.dialect = r.dialect ∧ r.hit_count ≤ r2.hit_count) ∧
     ((⟨false, [], [], [⟨"hello", "standard", "t1", 2⟩], [], [], [], [], []⟩ : DbState).is_pg = false →
        ∀ r2 ∈ ((cache_translation
            ⟨false, [], [], [⟨"hello", "standard", "t1", 2⟩], [], [], [], [], []⟩
            "hello" "standard" "t2").cache),
          r2.text = normKey "hello" → r2.dialect = "standard" → r2.hit_count = 1)) :=
  ⟨by decide,
   cache_upsert_amended ⟨false, [], [], [⟨"hello", "standard", "t1", 2⟩], [], [], [], [], []⟩
     "hello" "standard" "t2" (by decide)⟩

theorem dropWhile_append_all {p : Char → Bool} (ws x : List Char)
    (h : ∀ c ∈ ws, p c = true) : (ws ++ x).dropWhile p = x.dropWhile p := by
  induction ws with
  | nil => rfl
  | cons a l ih =>
      have ha : p a = true := h a (List.mem_cons_self a l)
      have ih2 := ih (fun c hc => h c (List.mem_cons_of_mem a hc))
      simp [List.dropWhile_cons, ha, ih2]

theorem dropWhile_append_cons {p : Char → Bool} (x ws : List Char) (b : Char) (y : List Char)
    (hdx : x.dropWhile p = b :: y) : (x ++ ws).dropWhile p = b :: (y ++ ws) := by
  induction x with
  | nil => cases hdx
  | cons a l ih =>
      cases hp : p a with
      | true =>
          rw [List.dropWhile_cons, hp] at hdx
          simp only [List.cons_append, List.dropWhile_cons, hp]
          exact ih hdx
      | false =>
          rw [List.dropWhile_cons, hp] at hdx
          injection hdx with hab hly
          simp only [List.cons_append, List.dropWhile_cons, hp]
          simp [hab, hly]

theorem pyStrip_left (ws x : List Char) (h : ∀ c ∈ ws, isPySpaceB c = true) :
    pyStripList (ws ++ x) = pyStripList x := by
  unfold pyStripList
  rw [dropWhile_append_all ws x h]

theorem pyStrip_suffix (x ws : List Char) (h : ∀ c ∈ ws, isPySpaceB c = true) :
    pyStripList (x ++ ws) = pyStripList x := by
  unfold pyStripList
  cases hdx : x.dropWhile isPySpaceB with
  | nil =>
      have hx : ∀ c ∈ x, isPySpaceB c = true := by
        intro c hc
        exact List.dropWhile_eq_nil_iff.mp hdx c hc
      have hxw : (x ++ ws).dropWhile isPySpaceB = [] := by
        rw [dropWhile_append_all x ws hx]
        exact List.dropWhile_eq_nil_iff.mpr (fun c hc => h c hc)
      rw [hxw]
  | cons b y =>
      rw [dropWhile_append_cons x ws b y hdx]
      have : (b :: (y ++ ws)).reverse = ws.reverse ++ (b :: y).reverse := by
        simp
      rw [this, dropWhile_append_all ws.reverse _
        (fun c hc => h c (List.mem_reverse.mp hc))]

theorem isPySpaceB_toLower (c : Char) (h : isPySpaceB c = true) : Char.toLower c = c := by
  simp only [isPySpaceB, Bool.or_eq_true, beq_iff_eq] at h
  rcases h with ((((h | h) | h) | h) | h) | h <;> subst h <;> decide

theorem normKey_eq (f : Char → Char) (hf : ∀ c, Char.toLower (f c) = Char.toLower c)
    (ws1 ws2 : List Char) (h1 : ∀ c ∈ ws1, isPySpaceB c = true)
    (h2 : ∀ c ∈ ws2, isPySpaceB c = true) (t : String) :
    normKey ⟨ws1 ++ t.data.map f ++ ws2⟩ = normKey t := by
  unfold normKey lowerList
  apply congrArg String.mk
  have e1 : ((ws1 ++ t.data.map f ++ ws2).map Char.toLower)
      = (ws1.map Char.toLower ++ t.data.map Char.toLower ++ ws2.map Char.toLower) := by
    rw [List.map_append, List.map_append, List.map_map]
    have : t.data.map (Char.toLower ∘ f) = t.data.map Char.toLower :=
      List.map_congr_left (fun c _ => hf c)
    rw [this]
  rw [e1]
  have hws1 : ∀ c ∈ ws1.map Char.toLower, isPySpaceB c = true := by
    intro c hc
    rcases List.mem_map.mp hc with ⟨a, ha, rfl⟩
    rw [isPySpaceB_toLower a (h1 a ha)]
    exact h1 a ha
  have hws2 : ∀ c ∈ ws2.map Char.toLower, isPySpaceB c = true := by
    intro c hc
    rcases List.mem_map.mp hc with ⟨a, ha, rfl⟩
    rw [isPySpaceB_toLower a (h2 a ha)]
    exact h2 a ha
  rw [pyStrip_suffix _ _ hws2, pyStrip_left _ _ hws1]

theorem cache_translation_pg_eq (db : DbState) (t d tr : String) (hpg : db.is_pg = true)
    (hany : db.cache.any (fun r => r.text == normKey t && r.dialect == d) = true) :
    (cache_translation db t d tr).cache
      = db.cache.map (fun r => if r.text == normKey t && r.dialect == d then
          { r with translation := tr } else r) := by
  simp [cache_translation, hany, hpg]

theorem cache_translation_insert_eq (db : DbState) (t d tr : String)
    (hany : db.cache.any (fun r => r.text == normKey t && r.dialect == d) = false) :
    (cache_translation db t d tr).cache = db.cache ++ [⟨normKey t, d, tr, 1⟩] := by
  simp [cache_translation, hany]

theorem lookup_after_store (db : DbState) (t t2 d tr : String)
    (hk : normKey t2 = normKey t) :
    (get_cached_translation (cache_translation db t d tr) t2 d).1 = some tr := by
  unfold get_cached_translation
  rw [hk]
  cases hany : db.cache.any (fun r => r.text == normKey t && r.dialect == d) with
  | true =>
      cases hpg : db.is_pg with
      | false =>
          rw [cache_translation_sqlite_eq db t d tr hpg]
          have hn : (db.cache.filter
              (fun r => !(r.text == normKey t && r.dialect == d))).find?
              (fun r => r.text == normKey t && r.dialect == d) = none := by
            rw [List.find?_eq_none]
            intro r hr hcontra
            rcases List.mem_filter.mp hr with ⟨_, hp⟩
            rw [hcontra] at hp
            simp at hp
          rw [List.find?_append, hn]
          simp [List.find?]
      | true =>
          rw [cache_translation_pg_eq db t d tr hpg hany]
          have hpred : ∀ q : CacheRow,
              ((fun r : CacheRow => r.text == normKey t && r.dialect == d)
                (if q.text == normKey t && q.dialect == d then
                  { q with translation := tr } else q))
              = ((fun r : CacheRow => r.text == normKey t && r.dialect == d) q) := by
            intro q
            by_cases h : q.text == normKey t && q.dialect == d <;> simp [h]
          rw [find?_map_key _ _ hpred]
          obtain ⟨r0, hr0⟩ : ∃ r0, db.cache.find?
              (fun r => r.text == normKey t && r.dialect == d) = some r0 :=
            Option.isSome_iff_exists.mp (List.find?_isSome.mpr (by
              rcases List.any_eq_true.mp hany with ⟨r, hr, hp⟩
              exact ⟨r, hr, hp⟩))
          rw [hr0]
          have hp0 : (r0.text == normKey t && r0.dialect == d) = true := by
            have := List.find?_some hr0
            simpa using this
          have hp1 : r0.text = normKey t ∧ r0.dialect = d := by simpa using hp0
          simp [hp1.1, hp1.2]
  | false =>
      rw [cache_translation_insert_eq db t d tr hany]
      have hn : db.cache.find? (fun r => r.text == normKey t && r.dialect == d) = none := by
        rw [List.find?_eq_none]
        intro r hr hcontra
        exact absurd hcontra (by simpa using (List.any_eq_false.mp hany) r hr)
      rw [List.find?_append, hn]
      simp [List.find?]

/-- CLAIM C9: cache lookups are invariant under recasing and added
leading/trailing whitespace of the text (`lookup(T, D) = lookup(T2, D)`
whenever T2 recases T and pads it with whitespace), and a store under T is
found by a lookup under such a T2, returning the stored translation. -/
theorem cache_key_invariance (f : Char → Char) (ws1 ws2 : List Char) (t d tr : String)
    (db : DbState)
    (hf : ∀ c, Char.toLower (f c) = Char.toLower c)
    (h1 : ∀ c ∈ ws1, isPySpaceB c = true) (h2 : ∀ c ∈ ws2, isPySpaceB c = true) :
    (get_cached_translation db ⟨ws1 ++ t.data.map f ++ ws2⟩ d).1
      = (get_cached_translation db t d).1 ∧
    (get_cached_translation (cache_translation db t d tr) ⟨ws1 ++ t.data.map f ++ ws2⟩ d).1
      = some tr := by
  have hk := normKey_eq f hf ws1 ws2 h1 h2 t
  constructor
  · unfold get_cached_translation
    rw [hk]
  · exact lookup_after_store db t ⟨ws1 ++ t.data.map f ++ ws2⟩ d tr hk

theorem cache_key_invariance_witness :
    (∀ c, Char.toLower ((fun c => if c == 'h' then 'H' else c) c) = Char.toLower c) ∧
    ((get_cached_translation ⟨false, [], [], [⟨"hello", "standard", "T0", 3⟩], [], [], [], [], []⟩
        ⟨[' '] ++ "hello".data.map (fun c => if c == 'h' then 'H' else c) ++ [' ']⟩
        "standard").1
      = (get_cached_translation ⟨false, [], [], [⟨"hello", "standard", "T0", 3⟩], [], [], [], [], []⟩
          "hello" "standard").1 ∧
     (get_cached_translation
        (cache_translation ⟨false, [], [], [⟨"hello", "standard", "T0", 3⟩], [], [], [], [], []⟩
          "hello" "standard" "TR")
        ⟨[' '] ++ "hello".data.map (fun c => if c == 'h' then 'H' else c) ++ [' ']⟩
        "standard").1 = some "TR") :=
  ⟨by
    intro c
    by_cases hc : c = 'h'
    · subst hc; decide
    · have hb : (c == 'h') = false := by simpa using hc
      simp [hb],
   cache_key_invariance (fun c => if c == 'h' then 'H' else c) [' '] [' '] "hello" "standard"
     "TR" ⟨false, [], [], [⟨"hello", "standard", "T0", 3⟩], [], [], [], [], []⟩
     (by
       intro c
       by_cases hc : c = 'h'
       · subst hc; decide
       · have hb : (c == 'h') = false := by simpa using hc
         simp [hb])
     (by decide) (by decide)⟩

/-- CLAIM C1: when both a verified entry and a cache entry exist for the
(text, user dialect) key, `translate_text` returns the verified payload
marked as a verified translation; the run performs only the verified
lookup and a history write — no cache read and no provider call — and the
cache table is untouched. Relies on the spec-modelled
`get_verified_translation`. -/
theorem verified_precedence (env : Env) (db : DbState) (text : String) (uid now : Nat)
    (v c : String)
    (hv : get_verified_translation (get_user db uid now).2 text (get_user db uid now).1.1
      = some v)
    (hc : (get_cached_translation (get_user db uid now).2 text (get_user db uid now).1.1).1
      = some c) :
    (translate_text env db text uid now).1 = "✅ *Verified Translation*\n\n" ++ v ∧
    (translate_text env db text uid now).2.2 = [Step.verifiedLookup, Step.historyWrite] ∧
    (translate_text env db text uid now).2.1.cache = db.cache := by
  simp only [translate_text]
  rw [hv]
  refine ⟨rfl, rfl, ?_⟩
  show (add_history (get_user db uid now).2 uid text).cache = db.cache
  rw [add_history_cache, get_user_cache]

theorem verified_precedence_witness :
    (get_verified_translation
        (get_user ⟨false, [], [], [⟨"hello", "standard", "cached-v", 1⟩], [], [], [], [],
          [⟨"hello", "standard", "darja-v"⟩]⟩ 1 0).2 "hello"
        (get_user ⟨false, [], [], [⟨"hello", "standard", "cached-v", 1⟩], [], [], [], [],
          [⟨"hello", "standard", "darja-v"⟩]⟩ 1 0).1.1 = some "darja-v") ∧
    ((translate_text ⟨["k1"], "", fun _ _ => GRes.exn "x", GroqRes.exn "y"⟩
        ⟨false, [], [], [⟨"hello", "standard", "cached-v", 1⟩], [], [], [], [],
          [⟨"hello", "standard", "darja-v"⟩]⟩ "hello" 1 0).1
      = "✅ *Verified Translation*\n\n" ++ "darja-v" ∧
     (translate_text ⟨["k1"], "", fun _ _ => GRes.exn "x", GroqRes.exn "y"⟩
        ⟨false, [], [], [⟨"hello", "standard", "cached-v", 1⟩], [], [], [], [],
          [⟨"hello", "standard", "darja-v"⟩]⟩ "hello" 1 0).2.2
      = [Step.verifiedLookup, Step.historyWrite] ∧
     (translate_text ⟨["k1"], "", fun _ _ => GRes.exn "x", GroqRes.exn "y"⟩
        ⟨false, [], [], [⟨"hello", "standard", "cached-v", 1⟩], [], [], [], [],
          [⟨"hello", "standard", "darja-v"⟩]⟩ "hello" 1 0).2.1.cache
      = [⟨"hello", "standard", "cached-v", 1⟩]) :=
  ⟨by decide,
   verified_precedence ⟨["k1"], "", fun _ _ => GRes.exn "x", GroqRes.exn "y"⟩
     ⟨false, [], [], [⟨"hello", "standard", "cached-v", 1⟩], [], [], [], [],
       [⟨"hello", "standard", "darja-v"⟩]⟩ "hello" 1 0 "darja-v" "cached-v" (by decide) (by decide)⟩

theorem run_gemini_steps_shape (g : String → String → GRes) :
    ∀ (l : List (String × String)) (err : Option String),
      ∀ s ∈ (run_gemini g l err).steps, ∃ v k, s = Step.geminiAttempt v k := by
  intro l
  induction l with
  | nil =>
      intro err s hs
      simp [run_gemini] at hs
  | cons p rest ih =>
      intro err s hs
      obtain ⟨ver, key⟩ := p
      cases hg : g ver key with
      | ok t =>
          by_cases ht : (t == "") = true
          · simp only [run_gemini, hg, ht, if_true] at hs
            rcases List.mem_cons.mp hs with h | h
            · exact ⟨ver, key, h⟩
            · exact ih _ s h
          · simp only [run_gemini, hg, if_neg ht] at hs
            rcases List.mem_cons.mp hs with h | h
            · exact ⟨ver, key, h⟩
            · cases h
      | exn e =>
          simp only [run_gemini, hg] at hs
          rcases List.mem_cons.mp hs with h | h
          · exact ⟨ver, key, h⟩
          · exact ih _ s h

theorem dict_phase_cache (db : DbState) (text : String) (uid : Nat) (apiErr : Option String)
    (tr0 : List Step) : (dict_phase db text uid apiErr tr0).2.1.cache = db.cache := by
  unfold dict_phase
  split <;> rfl

theorem dict_phase_mem (db : DbState) (text : String) (uid : Nat) (apiErr : Option String)
    (tr0 : List Step) (s : Step) (hs : s ∈ (dict_phase db text uid apiErr tr0).2.2) :
    s ∈ tr0 ∨ s = Step.dictLookup ∨ s = Step.historyWrite := by
  unfold dict_phase at hs
  rcases hm : find_match text with _ | m
  · rw [hm] at hs
    simp only at hs
    rcases List.mem_append.mp hs with h | h
    · exact Or.inl h
    · exact Or.inr (Or.inl (by simpa using h))
  · rw [hm] at hs
    simp only at hs
    rcases List.mem_append.mp hs with h | h
    · exact Or.inl h
    · rcases List.mem_cons.mp h with h2 | h2
      · exact Or.inr (Or.inl h2)
      · exact Or.inr (Or.inr (by simpa using h2))

theorem after_cache_false_cache (env : Env) (db : DbState) (text : String) (uid : Nat)
    (dialect : String) :
    (after_cache env db text uid dialect false).2.1.cache = db.cache := by
  rcases hr : (run_gemini env.gemini (all_pairs version_fallback env.geminiKeys) none).result
    with _ | t
  · by_cases hq : (env.groqKey == "") = true
    · simp [after_cache, hr, hq, dict_phase_cache]
    · rcases hgq : env.groq with cs | e
      · rcases cs with _ | ⟨c, tail⟩
        · simp [after_cache, hr, hq, hgq, dict_phase_cache]
        · simp [after_cache, hr, hq, hgq, add_history_cache]
      · simp [after_cache, hr, hq, hgq, dict_phase_cache]
  · simp [after_cache, hr, add_history_cache]

theorem after_cache_false_mem (env : Env) (db : DbState) (text : String) (uid : Nat)
    (dialect : String) (s : Step)
    (hs : s ∈ (after_cache env db text uid dialect false).2.2) :
    (∃ v k, s = Step.geminiAttempt v k) ∨ s = Step.groqAttempt ∨ s = Step.dictLookup
      ∨ s = Step.historyWrite := by
  have hgem := run_gemini_steps_shape env.gemini
    (all_pairs version_fallback env.geminiKeys) none
  rcases hr : (run_gemini env.gemini (all_pairs version_fallback env.geminiKeys) none).result
    with _ | t
  · by_cases hq : (env.groqKey == "") = true
    · simp only [after_cache, hr, hq, if_true] at hs
      rcases dict_phase_mem _ _ _ _ _ _ hs with h | h | h
      · exact Or.inl (hgem s h)
      · exact Or.inr (Or.inr (Or.inl h))
      · exact Or.inr (Or.inr (Or.inr h))
    · rcases hgq : env.groq with cs | e
      · rcases cs with _ | ⟨c, tail⟩
        · simp only [after_cache, hr, hq, hgq, if_false, Bool.false_eq_true] at hs
          rcases dict_phase_mem _ _ _ _ _ _ hs with h | h | h
          · rcases List.mem_append.mp h with h3 | h3
            · exact Or.inl (hgem s h3)
            · exact Or.inr (Or.inl (by simpa using h3))
          · exact Or.inr (Or.inr (Or.inl h))
          · exact Or.inr (Or.inr (Or.inr h))
        · simp only [after_cache, hr, hq, hgq, if_false, Bool.false_eq_true] at hs
          rcases List.mem_append.mp hs with h | h
          · exact Or.inl (hgem s h)
          · rcases List.mem_cons.mp h with h2 | h2
            · exact Or.inr (Or.inl h2)
            · exact Or.inr (Or.inr (Or.inr (by simpa using h2)))
      · simp only [after_cache, hr, hq, hgq, if_false, Bool.false_eq_true] at hs
        rcases dict_phase_mem _ _ _ _ _ _ hs with h | h | h
        · rcases List.mem_append.mp h with h3 | h3
          · exact Or.inl (hgem s h3)
          · exact Or.inr (Or.inl (by simpa using h3))
        · exact Or.inr (Or.inr (Or.inl h))
        · exact Or.inr (Or.inr (Or.inr h))
  · simp only [after_cache, hr, Bool.false_eq_true, if_false] at hs
    rcases List.mem_append.mp hs with h | h
    · exact Or.inl (hgem s h)
    · exact Or.inr (Or.inr (Or.inr (by simpa using h)))

/-- CLAIM C6: a request by a user with context-mode on and non-empty
context history performs no cache read and no cache write — the cache
table is unchanged — whatever the providers do (including success). -/
theorem context_no_cache (env : Env) (db : DbState) (text : String) (uid now : Nat)
    (h1 : (get_user db uid now).1.2 = true)
    (h2 : get_history (get_user db uid now).2 uid ≠ []) :
    (translate_text env db text uid now).2.1.cache = db.cache ∧
    Step.cacheLookup ∉ (translate_text env db text uid now).2.2 ∧
    Step.cacheWrite ∉ (translate_text env db text uid now).2.2 := by
  have hemp : (get_history (get_user db uid now).2 uid).isEmpty = false := by
    cases hh : get_history (get_user db uid now).2 uid with
    | nil => exact absurd hh h2
    | cons a l => rfl
  rcases hv : get_verified_translation (get_user db uid now).2 text (get_user db uid now).1.1
    with _ | v
  · have hred : translate_text env db text uid now
        = ((after_cache env (get_user db uid now).2 text uid (get_user db uid now).1.1 false).1,
           (after_cache env (get_user db uid now).2 text uid (get_user db uid now).1.1
             false).2.1,
           Step.verifiedLookup ::
             (after_cache env (get_user db uid now).2 text uid (get_user db uid now).1.1
               false).2.2) := by
      simp only [translate_text, h1, hv, hemp]
      simp
      rw [if_neg h2, hemp]
    rw [hred]
    refine ⟨?_, ?_, ?_⟩
    · show (after_cache env (get_user db uid now).2 text uid (get_user db uid now).1.1
          false).2.1.cache = db.cache
      rw [after_cache_false_cache, get_user_cache]
    · intro hmem
      rcases List.mem_cons.mp hmem with h | h
      · exact Step.noConfusion h
      · rcases after_cache_false_mem _ _ _ _ _ _ h with ⟨v', k', hk⟩ | h3 | h3 | h3
        · exact Step.noConfusion hk
        · exact Step.noConfusion h3
        · exact Step.noConfusion h3
        · exact Step.noConfusion h3
    · intro hmem
      rcases List.mem_cons.mp hmem with h | h
      · exact Step.noConfusion h
      · rcases after_cache_false_mem _ _ _ _ _ _ h with ⟨v', k', hk⟩ | h3 | h3 | h3
        · exact Step.noConfusion hk
        · exact Step.noConfusion h3
        · exact Step.noConfusion h3
        · exact Step.noConfusion h3
  · have hred : translate_text env db text uid now
        = ("✅ *Verified Translation*\n\n" ++ v,
           add_history (get_user db uid now).2 uid text,
           [Step.verifiedLookup, Step.historyWrite]) := by
      simp only [translate_text, hv]
    rw [hred]
    exact ⟨by rw [add_history_cache, get_user_cache], by simp, by simp⟩

theorem context_no_cache_witness :
    ((get_user ⟨false, [⟨1, "standard", true, 0⟩], [⟨1, "prev"⟩], [], [], [], [], [], []⟩
        1 0).1.2 = true) ∧
    ((translate_text ⟨["k1"], "", fun _ _ => GRes.ok "TR", GroqRes.exn "y"⟩
        ⟨false, [⟨1, "standard", true, 0⟩], [⟨1, "prev"⟩], [], [], [], [], [], []⟩
        "hi" 1 0).2.1.cache = [] ∧
     Step.cacheLookup ∉ (translate_text ⟨["k1"], "", fun _ _ => GRes.ok "TR", GroqRes.exn "y"⟩
        ⟨false, [⟨1, "standard", true, 0⟩], [⟨1, "prev"⟩], [], [], [], [], [], []⟩
        "hi" 1 0).2.2 ∧
     Step.cacheWrite ∉ (translate_text ⟨["k1"], "", fun _ _ => GRes.ok "TR", GroqRes.exn "y"⟩
        ⟨false, [⟨1, "standard", true, 0⟩], [⟨1, "prev"⟩], [], [], [], [], [], []⟩
        "hi" 1 0).2.2) :=
  ⟨by decide,
   context_no_cache ⟨["k1"], "", fun _ _ => GRes.ok "TR", GroqRes.exn "y"⟩
     ⟨false, [⟨1, "standard", true, 0⟩], [⟨1, "prev"⟩], [], [], [], [], [], []⟩
     "hi" 1 0 (by decide) (by decide)⟩

theorem run_gemini_fail (g : String → String → GRes) :
    ∀ (l : List (String × String)) (err : Option String),
      (∀ p ∈ l, gres_fails (g p.1 p.2) = true) →
      (run_gemini g l err).result = none ∧
      (run_gemini g l err).steps = l.map (fun p => Step.geminiAttempt p.1 p.2) := by
  intro l
  induction l with
  | nil => intro err h; exact ⟨rfl, rfl⟩
  | cons p rest ih =>
      intro err h
      obtain ⟨ver, key⟩ := p
      have hp : gres_fails (g ver key) = true := h (ver, key) (List.mem_cons_self _ _)
      have hrest : ∀ err2, (run_gemini g rest err2).result = none ∧
          (run_gemini g rest err2).steps = rest.map (fun p => Step.geminiAttempt p.1 p.2) :=
        fun err2 => ih err2 (fun q hq => h q (List.mem_cons_of_mem _ hq))
      cases hg : g ver key with
      | ok t =>
          have ht : (t == "") = true := by rw [hg] at hp; simpa [gres_fails] using hp
          exact ⟨by simp [run_gemini, hg, ht,
              (hrest (some "Safety filter blocked response")).1],
            by simp [run_gemini, hg, ht, (hrest (some "Safety filter blocked response")).2]⟩
      | exn e =>
          exact ⟨by simp [run_gemini, hg, (hrest (some e)).1],
            by simp [run_gemini, hg, (hrest (some e)).2]⟩

theorem all_pairs_nodup (versions keys : List String)
    (hv : versions.Nodup) (hk : keys.Nodup) : (all_pairs versions keys).Nodup := by
  induction versions with
  | nil => simp [all_pairs]
  | cons v vs ih =>
      have hvs : vs.Nodup := (List.nodup_cons.mp hv).2
      have hnv : v ∉ vs := (List.nodup_cons.mp hv).1
      simp only [all_pairs, List.flatMap_cons]
      rw [List.nodup_append]
      refine ⟨?_, ih hvs, ?_⟩
      · exact hk.map (fun a b hab => congrArg Prod.snd hab)
      · intro x hx1 hx2
        rcases List.mem_map.mp hx1 with ⟨k, hkmem, rfl⟩
        rcases List.mem_flatMap.mp hx2 with ⟨v2, hv2, hmm⟩
        rcases List.mem_map.mp hmm with ⟨k2, hk2, heq⟩
        have hvv : v2 = v := congrArg Prod.fst heq
        rw [hvv] at hv2
        exact hnv hv2

theorem attempted_pairs_map (l : List (String × String)) :
    attempted_pairs (l.map (fun p => Step.geminiAttempt p.1 p.2)) = l := by
  induction l with
  | nil => rfl
  | cons p rest ih =>
      simp only [List.map_cons, attempted_pairs, List.filterMap_cons] at ih ⊢
      rw [ih]

theorem attempted_pairs_append (l1 l2 : List Step) :
    attempted_pairs (l1 ++ l2) = attempted_pairs l1 ++ attempted_pairs l2 := by
  unfold attempted_pairs
  rw [List.filterMap_append]

theorem provider_steps_append (l1 l2 : List Step) :
    provider_steps (l1 ++ l2) = provider_steps l1 ++ provider_steps l2 := by
  unfold provider_steps
  rw [List.filter_append]

theorem provider_steps_gemini (l : List (String × String)) :
    provider_steps (l.map (fun p => Step.geminiAttempt p.1 p.2))
      = l.map (fun p => Step.geminiAttempt p.1 p.2) := by
  apply List.filter_eq_self.mpr
  intro s hs
  rcases List.mem_map.mp hs with ⟨p, _, rfl⟩
  rfl

theorem dict_phase_steps (db : DbState) (text : String) (uid : Nat) (apiErr : Option String)
    (tr0 : List Step) :
    (dict_phase db text uid apiErr tr0).2.2 = tr0 ++ [Step.dictLookup, Step.historyWrite] ∨
    (dict_phase db text uid apiErr tr0).2.2 = tr0 ++ [Step.dictLookup] := by
  unfold dict_phase
  split
  · exact Or.inl rfl
  · exact Or.inr rfl

theorem provider_steps_dict (db : DbState) (text : String) (uid : Nat) (apiErr : Option String)
    (tr0 : List Step) :
    provider_steps (dict_phase db text uid apiErr tr0).2.2
      = provider_steps tr0 ++ [Step.dictLookup] := by
  rcases dict_phase_steps db text uid apiErr tr0 with h | h <;>
    rw [h, provider_steps_append] <;> rfl

theorem dict_phase_none (db : DbState) (text : String) (uid : Nat) (apiErr : Option String)
    (tr0 : List Step) (hd : find_match text = none) :
    (dict_phase db text uid apiErr tr0).1 = terminal_error apiErr := by
  unfold dict_phase
  rw [hd]

theorem get_cached_miss (db : DbState) (t d : String)
    (h : (get_cached_translation db t d).1 = none) :
    get_cached_translation db t d = (none, db) := by
  unfold get_cached_translation at h ⊢
  rcases hf : db.cache.find? (fun r => r.text == normKey t && r.dialect == d) with _ | r
  · rw [hf]
  · rw [hf] at h
    simp at h

theorem translate_text_miss_reduce (env : Env) (db : DbState) (text : String) (uid now : Nat)
    (hv : get_verified_translation (get_user db uid now).2 text (get_user db uid now).1.1
      = none)
    (hcm : (get_cached_translation (get_user db uid now).2 text (get_user db uid now).1.1).1
      = none) :
    ∃ (b : Bool) (pre : List Step),
      (pre = [Step.verifiedLookup] ∨ pre = [Step.verifiedLookup, Step.cacheLookup]) ∧
      translate_text env db text uid now
        = ((after_cache env (get_user db uid now).2 text uid (get_user db uid now).1.1 b).1,
           (after_cache env (get_user db uid now).2 text uid (get_user db uid now).1.1 b).2.1,
           pre ++ (after_cache env (get_user db uid now).2 text uid
             (get_user db uid now).1.1 b).2.2) := by
  have hmiss := get_cached_miss _ _ _ hcm
  cases hcmode : (get_user db uid now).1.2 with
  | false =>
      refine ⟨true, [Step.verifiedLookup, Step.cacheLookup], Or.inr rfl, ?_⟩
      simp only [translate_text, hcmode, hv, hmiss]
      simp
  | true =>
      cases hh : get_history (get_user db uid now).2 uid with
      | nil =>
          refine ⟨true, [Step.verifiedLookup, Step.cacheLookup], Or.inr rfl, ?_⟩
          simp only [translate_text, hcmode, hv, hh, hmiss]
          simp
      | cons a l =>
          refine ⟨false, [Step.verifiedLookup], Or.inl rfl, ?_⟩
          simp only [translate_text, hcmode, hv, hh, hmiss]
          simp

theorem after_cache_fail_groq_cons (env : Env) (db : DbState) (text : String) (uid : Nat)
    (dialect : String) (b : Bool) (c0 : String) (cs0 : List String)
    (hg : ∀ p ∈ all_pairs version_fallback env.geminiKeys,
      gres_fails (env.gemini p.1 p.2) = true)
    (hq : (env.groqKey == "") = false) (hgq : env.groq = GroqRes.ok (c0 :: cs0)) :
    (after_cache env db text uid dialect b).1 = c0 ∧
    provider_steps (after_cache env db text uid dialect b).2.2
      = (all_pairs version_fallback env.geminiKeys).map
          (fun p => Step.geminiAttempt p.1 p.2) ++ [Step.groqAttempt] ∧
    attempted_pairs (after_cache env db text uid dialect b).2.2
      = all_pairs version_fallback env.geminiKeys := by
  have hfail := run_gemini_fail env.gemini (all_pairs version_fallback env.geminiKeys) none hg
  cases b with
  | false =>
      simp only [after_cache, hfail.1, hfail.2, hq, hgq, Bool.false_eq_true, if_false]
      refine ⟨trivial, ?_, ?_⟩
      · rw [provider_steps_append, provider_steps_gemini]
        rfl
      · rw [attempted_pairs_append, attempted_pairs_map]
        simp [attempted_pairs]
  | true =>
      simp only [after_cache, hfail.1, hfail.2, hq, hgq, Bool.false_eq_true, if_false, if_true]
      refine ⟨trivial, ?_, ?_⟩
      · rw [provider_steps_append, provider_steps_gemini]
        rfl
      · rw [attempted_pairs_append, attempted_pairs_map]
        simp [attempted_pairs]

theorem after_cache_fail_groq_nil (env : Env) (db : DbState) (text : String) (uid : Nat)
    (dialect : String) (b : Bool)
    (hg : ∀ p ∈ all_pairs version_fallback env.geminiKeys,
      gres_fails (env.gemini p.1 p.2) = true)
    (hq : (env.groqKey == "") = false) (hgq : env.groq = GroqRes.ok []) :
    after_cache env db text uid dialect b
      = dict_phase db text uid
          (run_gemini env.gemini (all_pairs version_fallback env.geminiKeys) none).apiErr
          ((all_pairs version_fallback env.geminiKeys).map
            (fun p => Step.geminiAttempt p.1 p.2) ++ [Step.groqAttempt]) := by
  have hfail := run_gemini_fail env.gemini (all_pairs version_fallback env.geminiKeys) none hg
  simp only [after_cache, hfail.1, hfail.2, hq, hgq, Bool.false_eq_true, if_false]

theorem after_cache_fail_groq_exn (env : Env) (db : DbState) (text : String) (uid : Nat)
    (dialect : String) (b : Bool) (e : String)
    (hg : ∀ p ∈ all_pairs version_fallback env.geminiKeys,
      gres_fails (env.gemini p.1 p.2) = true)
    (hq : (env.groqKey == "") = false) (hgq : env.groq = GroqRes.exn e) :
    after_cache env db text uid dialect b
      = dict_phase db text uid (some ("Groq error: " ++ e))
          ((all_pairs version_fallback env.geminiKeys).map
            (fun p => Step.geminiAttempt p.1 p.2) ++ [Step.groqAttempt]) := by
  have hfail := run_gemini_fail env.gemini (all_pairs version_fallback env.geminiKeys) none hg
  simp only [after_cache, hfail.1, hfail.2, hq, hgq, Bool.false_eq_true, if_false]

theorem attempted_pairs_dict (db : DbState) (text : String) (uid : Nat) (apiErr : Option String)
    (tr0 : List Step) :
    attempted_pairs (dict_phase db text uid apiErr tr0).2.2 = attempted_pairs tr0 := by
  rcases dict_phase_steps db text uid apiErr tr0 with h | h <;>
    rw [h, attempted_pairs_append] <;> simp [attempted_pairs]

/-- CLAIM C4: if every (model version, credential) pair fails, the trace
attempts exactly the cross-product of `version_fallback` and
`GEMINI_API_KEYS` in order (each pair once — the list is duplicate-free
for duplicate-free key lists); the secondary (Groq) provider is consulted
only after all of them, the dictionary only after the secondary, and a
successful secondary response is returned as the result. -/
theorem fallback_order (env : Env) (db : DbState) (text : String) (uid now : Nat)
    (hv : get_verified_translation (get_user db uid now).2 text (get_user db uid now).1.1
      = none)
    (hcm : (get_cached_translation (get_user db uid now).2 text (get_user db uid now).1.1).1
      = none)
    (hg : ∀ p ∈ all_pairs version_fallback env.geminiKeys,
      gres_fails (env.gemini p.1 p.2) = true)
    (hk : env.geminiKeys.Nodup)
    (hq : (env.groqKey == "") = false) :
    attempted_pairs (translate_text env db text uid now).2.2
      = all_pairs version_fallback env.geminiKeys ∧
    (all_pairs version_fallback env.geminiKeys).Nodup ∧
    (∀ c0 cs0, env.groq = GroqRes.ok (c0 :: cs0) →
      provider_steps (translate_text env db text uid now).2.2
        = (all_pairs version_fallback env.geminiKeys).map
            (fun p => Step.geminiAttempt p.1 p.2) ++ [Step.groqAttempt] ∧
      (translate_text env db text uid now).1 = c0) ∧
    (∀ e, env.groq = GroqRes.exn e →
      provider_steps (translate_text env db text uid now).2.2
        = (all_pairs version_fallback env.geminiKeys).map
            (fun p => Step.geminiAttempt p.1 p.2) ++ [Step.groqAttempt, Step.dictLookup]) := by
  obtain ⟨b, pre, hpre, heq⟩ := translate_text_miss_reduce env db text uid now hv hcm
  have hpre0 : attempted_pairs pre = [] ∧ provider_steps pre = [] := by
    rcases hpre with h | h <;> subst h <;> exact ⟨rfl, rfl⟩
  refine ⟨?_, all_pairs_nodup version_fallback env.geminiKeys (by decide) hk, ?_, ?_⟩
  · rcases hgq : env.groq with cs | e
    · rcases cs with _ | ⟨c0, cs0⟩
      · simp only [heq]
        rw [attempted_pairs_append, hpre0.1,
          after_cache_fail_groq_nil env _ text uid _ b hg hq hgq, attempted_pairs_dict,
          attempted_pairs_append, attempted_pairs_map]
        simp [attempted_pairs]
      · simp only [heq]
        rw [attempted_pairs_append, hpre0.1]
        simpa using (after_cache_fail_groq_cons env _ text uid _ b c0 cs0 hg hq hgq).2.2
    · simp only [heq]
      rw [attempted_pairs_append, hpre0.1,
        after_cache_fail_groq_exn env _ text uid _ b e hg hq hgq, attempted_pairs_dict,
        attempted_pairs_append, attempted_pairs_map]
      simp [attempted_pairs]
  · intro c0 cs0 hgq
    constructor
    · simp only [heq]
      rw [provider_steps_append, hpre0.2]
      simpa using (after_cache_fail_groq_cons env _ text uid _ b c0 cs0 hg hq hgq).2.1
    · simp only [heq]
      exact (after_cache_fail_groq_cons env _ text uid _ b c0 cs0 hg hq hgq).1
  · intro e hgq
    simp only [heq]
    rw [provider_steps_append, hpre0.2,
      after_cache_fail_groq_exn env _ text uid _ b e hg hq hgq, provider_steps_dict,
      provider_steps_append, provider_steps_gemini]
    simp [provider_steps]

theorem fallback_order_witness :
    (["k1", "k2"] : List String).Nodup ∧
    (attempted_pairs (translate_text
        ⟨["k1", "k2"], "gq", fun _ _ => GRes.exn "boom", GroqRes.ok ["done"]⟩
        ⟨false, [], [], [], [], [], [], [], []⟩ "hi" 1 0).2.2
      = all_pairs version_fallback ["k1", "k2"] ∧
     (all_pairs version_fallback ["k1", "k2"]).Nodup ∧
     (∀ c0 cs0, (GroqRes.ok ["done"] : GroqRes) = GroqRes.ok (c0 :: cs0) →
       provider_steps (translate_text
          ⟨["k1", "k2"], "gq", fun _ _ => GRes.exn "boom", GroqRes.ok ["done"]⟩
          ⟨false, [], [], [], [], [], [], [], []⟩ "hi" 1 0).2.2
         = (all_pairs version_fallback ["k1", "k2"]).map
             (fun p => Step.geminiAttempt p.1 p.2) ++ [Step.groqAttempt] ∧
       (translate_text
          ⟨["k1", "k2"], "gq", fun _ _ => GRes.exn "boom", GroqRes.ok ["done"]⟩
          ⟨false, [], [], [], [], [], [], [], []⟩ "hi" 1 0).1 = c0) ∧
     (∀ e, (GroqRes.ok ["done"] : GroqRes) = GroqRes.exn e →
       provider_steps (translate_text
          ⟨["k1", "k2"], "gq", fun _ _ => GRes.exn "boom", GroqRes.ok ["done"]⟩
          ⟨false, [], [], [], [], [], [], [], []⟩ "hi" 1 0).2.2
         = (all_pairs version_fallback ["k1", "k2"]).map
             (fun p => Step.geminiAttempt p.1 p.2) ++ [Step.groqAttempt, Step.dictLookup])) :=
  ⟨by decide,
   fallback_order ⟨["k1", "k2"], "gq", fun _ _ => GRes.exn "boom", GroqRes.ok ["done"]⟩
     ⟨false, [], [], [], [], [], [], [], []⟩ "hi" 1 0
     (by decide) (by decide) (fun p _ => rfl) (by decide) (by decide)⟩

theorem str_append_assoc (x y z : String) : x ++ y ++ z = x ++ (y ++ z) := by
  rcases x with ⟨lx⟩
  rcases y with ⟨ly⟩
  rcases z with ⟨lz⟩
  show String.mk ((lx ++ ly) ++ lz) = String.mk (lx ++ (ly ++ lz))
  rw [List.append_assoc]

/-- CLAIM C5: `translate_text` is a total function into strings (provider
exceptions are consumed as values, for any provider behaviour), and in the
terminal-failure case — verified miss, cache miss, every Gemini pair
failing, Groq raising, no dictionary match — the returned string is the
marked failure message embedding the last observed provider error. -/
theorem never_raises_terminal (env : Env) (db : DbState) (text : String) (uid now : Nat)
    (e : String)
    (hv : get_verified_translation (get_user db uid now).2 text (get_user db uid now).1.1
      = none)
    (hcm : (get_cached_translation (get_user db uid now).2 text (get_user db uid now).1.1).1
      = none)
    (hg : ∀ p ∈ all_pairs version_fallback env.geminiKeys,
      gres_fails (env.gemini p.1 p.2) = true)
    (hq : (env.groqKey == "") = false)
    (hgq : env.groq = GroqRes.exn e) (hd : find_match text = none) :
    (translate_text env db text uid now).1 = terminal_error (some ("Groq error: " ++ e)) ∧
    ∃ a b : String, (translate_text env db text uid now).1 = a ++ e ++ b := by
  obtain ⟨b0, pre, hpre, heq⟩ := translate_text_miss_reduce env db text uid now hv hcm
  have h1 : (translate_text env db text uid now).1
      = terminal_error (some ("Groq error: " ++ e)) := by
    simp only [heq]
    rw [after_cache_fail_groq_exn env _ text uid _ b0 e hg hq hgq]
    exact dict_phase_none _ _ _ _ _ hd
  refine ⟨h1,
    "❌ *Translation Service Unavailable*\n\nThe AI translation service is currently unavailable.\nPlease try again in a few minutes.\n\nError: `Groq error: ",
    "`", ?_⟩
  rw [h1]
  unfold terminal_error
  rw [← str_append_assoc]
  rfl

theorem never_raises_terminal_witness :
    find_match "zzz" = none ∧
    ((translate_text ⟨["k1"], "gq", fun _ _ => GRes.exn "boom", GroqRes.exn "gfail"⟩
        ⟨false, [], [], [], [], [], [], [], []⟩ "zzz" 1 0).1
      = terminal_error (some ("Groq error: " ++ "gfail")) ∧
     ∃ a b : String,
       (translate_text ⟨["k1"], "gq", fun _ _ => GRes.exn "boom", GroqRes.exn "gfail"⟩
          ⟨false, [], [], [], [], [], [], [], []⟩ "zzz" 1 0).1 = a ++ "gfail" ++ b) :=
  ⟨by decide,
   never_raises_terminal ⟨["k1"], "gq", fun _ _ => GRes.exn "boom", GroqRes.exn "gfail"⟩
     ⟨false, [], [], [], [], [], [], [], []⟩ "zzz" 1 0 "gfail"
     (by decide) (by decide) (fun p _ => rfl) (by decide) rfl (by decide)⟩
